import Mathlib

/-!
# Kernel signatures and kernel parameters (runtime/platform/kernel.hpp)

A shallow embedding of the classes `amd::KernelSignature` and
`amd::KernelParameters`.

Modelling conventions.

* An address is a natural number; the byte memory is a total map from
  addresses to bytes.  A `bool` occupies one byte (`sizeof(bool) = 1`), is
  written as `0` / `1` and is read as "non-zero".
* Addresses, indices and the sizes a signature stores are natural numbers.
  The one `size_t` computation of the class, the size `operator new` requests,
  wraps at `2 ^ 64` as `size_t` arithmetic does.
* A C++ `assert` that fails is the result `none`.
* The object header of a `KernelParameters` (its data members) is a
  structure; the three trailing regions the members `values_`, `defined_` and
  `svmBound_` point at live in the byte memory, exactly where the constructor
  places them.
-/

namespace amd

/-- The byte memory: every address (a natural number, the runtime's type
`address`) holds one byte. -/
abbrev Memory := Nat → Nat

/-- The C++ `sizeof(bool)`. -/
def sizeof_bool : Nat := 1

/-- Status of the kernel fine-grained system pointer support (`enum FGSStatus`). -/
inductive FGSStatus where
  | FGS_DEFAULT
  | FGS_NO
  | FGS_YES
  deriving DecidableEq, Repr

/-- Modelled from the spec: the type `KernelParameterDescriptor` is declared in
device/device.hpp, which is not part of the sources at hand.  The spec gives a
descriptor a byte size, a byte offset within the packed values region and a
kind tag. -/
structure KernelParameterDescriptor where
  size_ : Nat
  offset_ : Nat
  type_ : Nat
  deriving DecidableEq, Repr

/-- Modelled from the spec: `alignUp` is declared in a header that is not part of
the sources at hand.  It rounds `value` up to the next multiple of
`alignment`. -/
def alignUp (value alignment : Nat) : Nat :=
  (value + (alignment - 1)) / alignment * alignment

/-- The library routine `memset(p, c, n)`: the `n` bytes from `p` on become `c`. -/
def memset (mem : Memory) (p : Nat) (c : Nat) (n : Nat) : Memory :=
  fun a => if p ≤ a ∧ a < p + n then c else mem a

/-- A one-byte store `p[0] = b`. -/
def store (mem : Memory) (p : Nat) (b : Nat) : Memory :=
  fun a => if a = p then b else mem a

/-- The byte a `bool` is stored as. -/
def boolByte (b : Bool) : Nat := if b then 1 else 0

/-- A `bool` load: any non-zero byte reads as `true`. -/
def loadBool (mem : Memory) (p : Nat) : Bool := mem p != 0

/-! ## class KernelSignature -/

/-- The data members of `class KernelSignature`. -/
structure KernelSignature where
  params_ : List KernelParameterDescriptor
  paramsSize_ : Nat
  attributes_ : String

namespace KernelSignature

/-- The default constructor `KernelSignature() : paramsSize_(0) { }`. -/
def default : KernelSignature :=
  { params_ := [], paramsSize_ := 0, attributes_ := "" }

/-- Member `numParameters()`: `params_.size()`. -/
def numParameters (S : KernelSignature) : Nat := S.params_.length

/-- Member `at(index)`: asserts `index < params_.size()`, then returns
`params_[index]`.  The failed assertion is `none`. -/
def «at» (S : KernelSignature) (index : Nat) : Option KernelParameterDescriptor :=
  if h : index < S.params_.length then some (S.params_.get ⟨index, h⟩) else none

/-- Member `paramsSize()`. -/
def paramsSize (S : KernelSignature) : Nat := S.paramsSize_

/-- Member `attributes()`. -/
def attributes (S : KernelSignature) : String := S.attributes_

end KernelSignature

/-! ## class KernelParameters -/

/-- The data members of `class KernelParameters` (the object header). -/
structure KernelParameters where
  signature_ : KernelSignature
  values_ : Nat
  defined_ : Nat
  validated_ : Bool
  svmBound_ : Nat
  execInfoOffset_ : Nat
  execSvmPtr_ : List Nat
  svmSystemPointersSupport_ : FGSStatus

/-- A `KernelParameters` object together with the byte memory its pointer
members point into. -/
structure State where
  obj : KernelParameters
  mem : Memory

namespace KernelParameters

/-- The constructor `KernelParameters(const KernelSignature& signature)`, run on
the block at address `this_` in memory `mem`; `sizeofKP` is
`sizeof(KernelParameters)`. -/
def construct (sizeofKP : Nat) (this_ : Nat) (mem : Memory)
    (signature : KernelSignature) : State :=
  let values_ := this_ + alignUp sizeofKP 16
  let defined_ := values_ + signature.paramsSize
  let svmBound_ := defined_ + signature.numParameters * sizeof_bool
  let limit := svmBound_ + signature.numParameters * sizeof_bool
  { obj :=
      { signature_ := signature
        values_ := values_
        defined_ := defined_
        validated_ := false
        svmBound_ := svmBound_
        execInfoOffset_ := 0
        execSvmPtr_ := []
        svmSystemPointersSupport_ := FGSStatus.FGS_DEFAULT }
    mem := memset mem values_ 0 (limit - values_) }

/-- Member `reset(index)`:
`defined_[index] = false; svmBound_[index] = false; validated_ = false;`. -/
def reset (index : Nat) (s : State) : State :=
  let mem1 := store s.mem (s.obj.defined_ + index * sizeof_bool) (boolByte false)
  let mem2 := store mem1 (s.obj.svmBound_ + index * sizeof_bool) (boolByte false)
  { obj := { s.obj with validated_ := false }, mem := mem2 }

/-- Member `test(index)`: `return defined_[index];`. -/
def test (index : Nat) (s : State) : Bool :=
  loadBool s.mem (s.obj.defined_ + index * sizeof_bool)

/-- The flag `svmBound_[index]` (read by `boundToSvmPointer`). -/
def svmBoundAt (index : Nat) (s : State) : Bool :=
  loadBool s.mem (s.obj.svmBound_ + index * sizeof_bool)

/-- The number of values of the type `size_t` (64 bits). -/
def sizeModulus : Nat := 18446744073709551616

/-- The size `operator new(size, signature)` requests from
`AlignedMemory::allocate`.  The sum is computed in `size_t`, whose additions and
multiplications wrap, so the request is the sum modulo `2 ^ 64`. -/
def requiredSize (size : Nat) (signature : KernelSignature) : Nat :=
  (alignUp size 16 + signature.paramsSize + signature.numParameters * sizeof_bool * 2) %
    sizeModulus

/-- Member `values()`. -/
def values (s : State) : Nat := s.obj.values_

/-- Member `addSvmPtr(execInfoArray, count)`: clears `execSvmPtr_`, then pushes
`execInfoArray[i]` for `i = 0, ..., count - 1`. -/
def addSvmPtr (execInfoArray : Nat → Nat) (count : Nat) (s : State) : State :=
  let cleared : List Nat := []
  let filled := (List.range count).foldl (fun v i => v ++ [execInfoArray i]) cleared
  { s with obj := { s.obj with execSvmPtr_ := filled } }

/-- Member `getNumberOfSvmPtr()`. -/
def getNumberOfSvmPtr (s : State) : Nat := s.obj.execSvmPtr_.length

/-- Member `getExecInfoOffset()`. -/
def getExecInfoOffset (s : State) : Nat := s.obj.execInfoOffset_

/-- Member `setSvmSystemPointersSupport(svmSystemSupport)`. -/
def setSvmSystemPointersSupport (svmSystemSupport : FGSStatus) (s : State) : State :=
  { s with obj := { s.obj with svmSystemPointersSupport_ := svmSystemSupport } }

/-- Member `getSvmSystemPointersSupport()`. -/
def getSvmSystemPointersSupport (s : State) : FGSStatus :=
  s.obj.svmSystemPointersSupport_

/-- The library routine `memcpy(dst, src, n)`; the source is given by its bytes. -/
def memcpy (mem : Memory) (dst : Nat) (src : Nat → Nat) (n : Nat) : Memory :=
  fun a => if dst ≤ a ∧ a < dst + n then src (a - dst) else mem a

/-- Modelled from the spec: the body of `KernelParameters::set` is in
kernel.cpp, which is not part of the sources at hand.  Per the spec, an
out-of-range index and a size that differs from the descriptor's declared size
are failures; otherwise `set` copies `size` bytes from `value` into the values
region at the parameter's declared offset, sets `defined_[index]` to true and
`svmBound_[index]` to the argument `svmBound`, and invalidates `validated_`. -/
def set (index size : Nat) (value : Nat → Nat) (svmBound : Bool) (s : State) :
    Option State :=
  match s.obj.signature_.at index with
  | none => none
  | some desc =>
    if size = desc.size_ then
      let mem1 := memcpy s.mem (s.obj.values_ + desc.offset_) value size
      let mem2 := store mem1 (s.obj.defined_ + index * sizeof_bool) (boolByte true)
      let mem3 := store mem2 (s.obj.svmBound_ + index * sizeof_bool) (boolByte svmBound)
      some { obj := { s.obj with validated_ := false }, mem := mem3 }
    else none

/-- Modelled from the spec: the body of `KernelParameters::check` is in
kernel.cpp, which is not part of the sources at hand.  Per the spec, `check`
answers from the cache `validated_` when that is true; otherwise it returns
whether every `defined_[i]` is true and caches the answer in `validated_`.
The result is the returned `bool` and the state after the call. -/
def check (s : State) : Bool × State :=
  if s.obj.validated_ then (true, s)
  else
    let all := (List.range s.obj.signature_.numParameters).all (fun i => test i s)
    (all, { s with obj := { s.obj with validated_ := all } })


/-- The layout of the three regions as the constructor fixes it (lines 93-94);
the pointer members are assigned nowhere else. -/
def Layout (s : State) : Prop :=
  s.obj.defined_ = s.obj.values_ + s.obj.signature_.paramsSize ∧
  s.obj.svmBound_ = s.obj.defined_ + s.obj.signature_.numParameters * sizeof_bool

instance (s : State) : Decidable (Layout s) := by
  unfold Layout; exact inferInstance

end KernelParameters

open KernelParameters

/-! ## Sample data -/

/-- The signature of the scenario in the specification: two parameters of sizes
4 and 8, packed at offsets 0 and 4, `paramsSize() = 12`. -/
def sampleSignature : KernelSignature :=
  { params_ := [{ size_ := 4, offset_ := 0, type_ := 0 }, { size_ := 8, offset_ := 4, type_ := 0 }]
    paramsSize_ := 12
    attributes_ := "" }

/-- A signature with a single four-byte parameter. -/
def unarySignature : KernelSignature :=
  { params_ := [{ size_ := 4, offset_ := 0, type_ := 0 }]
    paramsSize_ := 4
    attributes_ := "" }

/-- A signature whose single eight-byte parameter sits at offset `2 ^ 64 - 24`,
so that `paramsSize() = 2 ^ 64 - 16`. -/
def hugeSignature : KernelSignature :=
  { params_ := [{ size_ := 8, offset_ := 18446744073709551592, type_ := 0 }]
    paramsSize_ := 18446744073709551600
    attributes_ := "" }

/-- A memory whose every byte is `0xFF`. -/
def dirtyMemory : Memory := fun _ => 255

/-- A state over `sampleSignature` (header of 80 bytes at address 4096) in
which every flag byte is set and `validated_` is true. -/
def sampleFull : State :=
  { obj := { (construct 80 4096 dirtyMemory sampleSignature).obj with validated_ := true }
    mem := fun _ => 1 }

/-! ## Call sequences -/

/-- Modelled from the spec: every parameter's bytes lie inside the values
region of `paramsSize()` bytes (the region holds the raw bytes of every
parameter at its declared offset).  The constructor that computes
`paramsSize_` is in kernel.cpp, which is not part of the sources at hand. -/
def KernelSignature.Packed (S : KernelSignature) : Prop :=
  ∀ d ∈ S.params_, d.offset_ + d.size_ ≤ S.paramsSize_

instance (S : KernelSignature) : Decidable S.Packed := by
  unfold KernelSignature.Packed; exact inferInstance

/-- The size the signature declares for parameter `index` (0 when there is no
such parameter). -/
def declaredSize (S : KernelSignature) (index : Nat) : Nat :=
  match S.at index with
  | some desc => desc.size_
  | none => 0

/-- A call on a `KernelParameters` object that is not a `reset`; a `bind` is a
call of `set` with the declared size of its index. -/
inductive Call where
  | bind (index : Nat) (value : Nat → Nat) (svmBound : Bool)
  | check
  | addSvmPtr (execInfoArray : Nat → Nat) (count : Nat)
  | setSvmSystemPointersSupport (svmSystemSupport : FGSStatus)

/-- The index a call binds, if it is a `bind`. -/
def Call.boundIndex : Call → Option Nat
  | Call.bind index _ _ => some index
  | _ => none

/-- Run one call; `none` when the call fails. -/
def Call.run : Call → State → Option State
  | Call.bind index value svmBound, s =>
    KernelParameters.set index (declaredSize s.obj.signature_ index) value svmBound s
  | Call.check, s => some (KernelParameters.check s).2
  | Call.addSvmPtr execInfoArray count, s =>
    some (KernelParameters.addSvmPtr execInfoArray count s)
  | Call.setSvmSystemPointersSupport x, s =>
    some (KernelParameters.setSvmSystemPointersSupport x s)

/-- Run a sequence of calls in order. -/
def runAll : List Call → State → Option State
  | [], s => some s
  | c :: cs, s =>
    match c.run s with
    | none => none
    | some s1 => runAll cs s1

/-- The states of a `KernelParameters` object built for the signature `sig`:
the constructed state and every state the member functions lead to (with
in-range indices for `reset`). -/
inductive Reachable (sig : KernelSignature) : State → Prop where
  | construct (sizeofKP this_ : Nat) (mem : Memory) :
      Reachable sig (construct sizeofKP this_ mem sig)
  | reset (s : State) (i : Nat) :
      Reachable sig s → i < sig.numParameters → Reachable sig (reset i s)
  | set (s s1 : State) (i size : Nat) (value : Nat → Nat) (svmBound : Bool) :
      Reachable sig s → KernelParameters.set i size value svmBound s = some s1 →
      Reachable sig s1
  | check (s : State) : Reachable sig s → Reachable sig (check s).2
  | addSvmPtr (s : State) (execInfoArray : Nat → Nat) (count : Nat) :
      Reachable sig s → Reachable sig (addSvmPtr execInfoArray count s)
  | setSvmSystemPointersSupport (s : State) (x : FGSStatus) :
      Reachable sig s → Reachable sig (setSvmSystemPointersSupport x s)

/-- The state over `unarySignature` (header of 80 bytes at address 4096, in a
memory full of `0xFF`) whose flags are as `set(0, 4, value, true)` leaves
them: `defined_[0]` and `svmBound_[0]` are true. -/
def boundState : State :=
  { obj := (construct 80 4096 dirtyMemory unarySignature).obj
    mem := store (store (construct 80 4096 dirtyMemory unarySignature).mem 4180 1) 4181 1 }

/-! ## Theorems -/

/-- After `reset(i)` the flag `defined_[i]` reads false: both stores of `reset`
write a zero byte. -/
theorem reset_test (s : State) (i : Nat) : test i (reset i s) = false := by
  simp [test, reset, loadBool, store, boolByte]

/-- After `reset(i)` the flag `svmBound_[i]` reads false. -/
theorem reset_svmBoundAt (s : State) (i : Nat) : svmBoundAt i (reset i s) = false := by
  simp [svmBoundAt, reset, loadBool, store, boolByte]

/-- The constructor leaves every in-range flag `defined_[i]` false. -/
theorem construct_test (sizeofKP this_ : Nat) (mem : Memory) (sig : KernelSignature)
    (i : Nat) (hi : i < sig.numParameters) :
    test i (construct sizeofKP this_ mem sig) = false := by
  simp only [test, construct, loadBool, memset, sizeof_bool]
  rw [if_pos (by omega)]
  rfl

/-- Claim C5: `at(i)` fails its assertion exactly when `i ≥ numParameters()`; in
range it returns `params_[i]`; `numParameters()` is the length of `params_`;
a default-constructed signature has no parameters and `paramsSize() = 0`. -/
theorem KernelSignature_at_contract (S : KernelSignature) (i : Nat) :
    (S.at i = none ↔ S.numParameters ≤ i) ∧
    (∀ h : i < S.params_.length, S.at i = some (S.params_.get ⟨i, h⟩)) ∧
    (i < S.numParameters → S.at i = S.params_[i]? ∧ (S.at i).isSome = true) ∧
    S.numParameters = S.params_.length ∧
    KernelSignature.default.numParameters = 0 ∧
    KernelSignature.default.paramsSize = 0 := by
  refine ⟨?_, ?_, ?_, rfl, rfl, rfl⟩
  · unfold KernelSignature.at KernelSignature.numParameters
    by_cases h : i < S.params_.length
    · simp [h]
    · simp [h]; omega
  · intro h
    simp [KernelSignature.at, h]
  · intro h
    have h2 : i < S.params_.length := h
    simp [KernelSignature.at, h2]

/-- Witness for `KernelSignature_at_contract`: index 1 of the two-parameter
scenario signature is its second descriptor. -/
theorem KernelSignature_at_contract_witness :
    sampleSignature.at 1 = some { size_ := 8, offset_ := 4, type_ := 0 } ∧
    (sampleSignature.at 2 = none ↔ sampleSignature.numParameters ≤ 2) :=
  have h := KernelSignature_at_contract sampleSignature 1
  ⟨h.2.1 (by decide), (KernelSignature_at_contract sampleSignature 2).1⟩

/-- Claim C1: for every state and every index `i < numParameters()`, after
`reset(i)` the call `test(i)` returns false, the flag `svmBound_[i]` is false and
`validated_` is false, whatever they were before. -/
theorem reset_clears (s : State) (i : Nat) (h : i < s.obj.signature_.numParameters) :
    test i (reset i s) = false ∧
    svmBoundAt i (reset i s) = false ∧
    (reset i s).obj.validated_ = false := by
  have _hi := h
  exact ⟨reset_test s i, reset_svmBoundAt s i, rfl⟩

/-- Witness for `reset_clears`: index 0 of a state whose flags were all set and
whose `validated_` was true. -/
theorem reset_clears_witness :
    (test 0 sampleFull = true ∧ svmBoundAt 0 sampleFull = true ∧
      sampleFull.obj.validated_ = true) ∧
    (test 0 (reset 0 sampleFull) = false ∧
      svmBoundAt 0 (reset 0 sampleFull) = false ∧
      (reset 0 sampleFull).obj.validated_ = false) :=
  ⟨by decide, reset_clears sampleFull 0 (by decide)⟩

/-- Claim C6: `reset(i)` with `i < numParameters()` leaves every byte of the
values region, the flags `defined_[j]` and `svmBound_[j]` of every other
parameter `j`, the auxiliary pointer list, the fine-grain support flag and
`execInfoOffset_` as they were; the only bytes it may change are `defined_[i]`
and `svmBound_[i]`. -/
theorem reset_frame (s : State) (i : Nat) (hl : Layout s)
    (hi : i < s.obj.signature_.numParameters) :
    (∀ k, k < s.obj.signature_.paramsSize →
      (reset i s).mem (s.obj.values_ + k) = s.mem (s.obj.values_ + k)) ∧
    (∀ j, j < s.obj.signature_.numParameters → j ≠ i →
      test j (reset i s) = test j s ∧ svmBoundAt j (reset i s) = svmBoundAt j s) ∧
    (∀ a, a ≠ s.obj.defined_ + i → a ≠ s.obj.svmBound_ + i → (reset i s).mem a = s.mem a) ∧
    (reset i s).obj.execSvmPtr_ = s.obj.execSvmPtr_ ∧
    (reset i s).obj.svmSystemPointersSupport_ = s.obj.svmSystemPointersSupport_ ∧
    (reset i s).obj.execInfoOffset_ = s.obj.execInfoOffset_ ∧
    (reset i s).obj.signature_ = s.obj.signature_ ∧
    (reset i s).obj.values_ = s.obj.values_ ∧
    (reset i s).obj.defined_ = s.obj.defined_ ∧
    (reset i s).obj.svmBound_ = s.obj.svmBound_ := by
  obtain ⟨hd, hb⟩ := hl
  simp only [sizeof_bool, Nat.mul_one] at hb
  refine ⟨?_, ?_, ?_, rfl, rfl, rfl, rfl, rfl, rfl, rfl⟩
  · intro k hk
    simp only [reset, store, sizeof_bool, Nat.mul_one]
    rw [if_neg (by omega), if_neg (by omega)]
  · intro j hj hne
    constructor
    · simp only [test, reset, store, loadBool, sizeof_bool, Nat.mul_one]
      rw [if_neg (by omega), if_neg (by omega)]
    · simp only [svmBoundAt, reset, store, loadBool, sizeof_bool, Nat.mul_one]
      rw [if_neg (by omega), if_neg (by omega)]
  · intro a h1 h2
    simp only [reset, store, sizeof_bool, Nat.mul_one]
    rw [if_neg h2, if_neg h1]

/-- Witness for `reset_frame`: resetting parameter 0 of `sampleFull` keeps the
flags of parameter 1 and the value bytes. -/
theorem reset_frame_witness :
    Layout sampleFull ∧ test 1 (reset 0 sampleFull) = true ∧
    svmBoundAt 1 (reset 0 sampleFull) = true ∧
    (reset 0 sampleFull).mem (sampleFull.obj.values_ + 3) = 1 :=
  have hl : Layout sampleFull := by decide
  have h := reset_frame sampleFull 0 hl (by decide)
  ⟨hl, by rw [(h.2.1 1 (by decide) (by decide)).1]; decide,
    by rw [(h.2.1 1 (by decide) (by decide)).2]; decide,
    by rw [h.1 3 (by decide)]; rfl⟩

/-- Rounding up to a multiple of 16 does not go below the value. -/
theorem le_alignUp_16 (n : Nat) : n ≤ alignUp n 16 := by
  unfold alignUp
  omega

/-- The result of `alignUp n 16` is a multiple of 16. -/
theorem alignUp_16_mod (n : Nat) : alignUp n 16 % 16 = 0 := by
  unfold alignUp
  omega

/-- Claim C7, as stated, fails: for the scenario signature (sizes 4 and 8,
`paramsSize() = 12`) in a block that starts at a multiple of 16, `values_` is a
multiple of 16 but `defined_` and `svmBound_` are not. -/
theorem region_alignment_counterexample :
    4096 % 16 = 0 ∧ sampleSignature.paramsSize = 12 ∧
    (construct 80 4096 dirtyMemory sampleSignature).obj.values_ % 16 = 0 ∧
    (construct 80 4096 dirtyMemory sampleSignature).obj.defined_ % 16 = 12 ∧
    (construct 80 4096 dirtyMemory sampleSignature).obj.svmBound_ % 16 = 14 ∧
    ¬ (∀ (sizeofKP this_ : Nat) (mem : Memory) (sig : KernelSignature), this_ % 16 = 0 →
        (construct sizeofKP this_ mem sig).obj.values_ % 16 = 0 ∧
        (construct sizeofKP this_ mem sig).obj.defined_ % 16 = 0 ∧
        (construct sizeofKP this_ mem sig).obj.svmBound_ % 16 = 0) := by
  refine ⟨by decide, by decide, by decide, by decide, by decide, ?_⟩
  intro h
  have h1 := (h 80 4096 dirtyMemory sampleSignature (by decide)).2.1
  revert h1
  decide

/-- Claim C7, amended: when the block starts at a multiple of 16, `values_` is a
multiple of 16; `defined_` lies `paramsSize()` bytes and `svmBound_` lies
`paramsSize() + numParameters()` bytes after `values_`, so each of them is a
multiple of 16 exactly when that distance is. -/
theorem region_alignment (sizeofKP this_ : Nat) (mem : Memory) (sig : KernelSignature)
    (h : this_ % 16 = 0) :
    (construct sizeofKP this_ mem sig).obj.values_ % 16 = 0 ∧
    (construct sizeofKP this_ mem sig).obj.defined_ =
      (construct sizeofKP this_ mem sig).obj.values_ + sig.paramsSize ∧
    (construct sizeofKP this_ mem sig).obj.svmBound_ =
      (construct sizeofKP this_ mem sig).obj.values_ + (sig.paramsSize + sig.numParameters) ∧
    ((construct sizeofKP this_ mem sig).obj.defined_ % 16 = 0 ↔ sig.paramsSize % 16 = 0) ∧
    ((construct sizeofKP this_ mem sig).obj.svmBound_ % 16 = 0 ↔
      (sig.paramsSize + sig.numParameters) % 16 = 0) := by
  have ha := alignUp_16_mod sizeofKP
  simp only [construct, sizeof_bool, Nat.mul_one]
  refine ⟨by omega, trivial, by omega, by omega, by omega⟩

/-- Witness for `region_alignment`: the scenario signature in a block at 4096. -/
theorem region_alignment_witness :
    4096 % 16 = 0 ∧
    (construct 80 4096 dirtyMemory sampleSignature).obj.values_ % 16 = 0 ∧
    ¬ ((construct 80 4096 dirtyMemory sampleSignature).obj.defined_ % 16 = 0) :=
  have h := region_alignment 80 4096 dirtyMemory sampleSignature (by decide)
  ⟨by decide, h.1, fun hd => absurd (h.2.2.2.1.mp hd) (by decide)⟩

/-- Claim C8, as stated, fails: `operator new` sums in `size_t`.  For a header of
80 bytes and the one-parameter signature with `paramsSize() = 2 ^ 64 - 16` the
sum `2 ^ 64 + 66` wraps and 66 bytes are requested, so the values region starts
after the end of the block, `values_[100]` lies outside the block, and the
constructor's `memset` writes the byte at `values_`, outside the block. -/
theorem allocation_wraps_counterexample :
    hugeSignature.numParameters = 1 ∧
    hugeSignature.paramsSize = 2 ^ 64 - 16 ∧
    alignUp 80 16 + hugeSignature.paramsSize + 2 * hugeSignature.numParameters = 2 ^ 64 + 66 ∧
    requiredSize 80 hugeSignature = 66 ∧
    (construct 80 4096 dirtyMemory hugeSignature).obj.values_ = 4096 + 80 ∧
    100 < hugeSignature.paramsSize ∧
    4096 + requiredSize 80 hugeSignature ≤
      (construct 80 4096 dirtyMemory hugeSignature).obj.values_ + 100 ∧
    dirtyMemory (4096 + 80) = 255 ∧
    (construct 80 4096 dirtyMemory hugeSignature).mem (4096 + 80) = 0 ∧
    ¬ (∀ (sizeofKP this_ : Nat) (mem : Memory) (sig : KernelSignature),
        requiredSize sizeofKP sig =
          alignUp sizeofKP 16 + sig.paramsSize + 2 * sig.numParameters ∧
        (construct sizeofKP this_ mem sig).obj.svmBound_ + sig.numParameters =
          this_ + requiredSize sizeofKP sig ∧
        (∀ a, (construct sizeofKP this_ mem sig).mem a ≠ mem a →
          this_ ≤ a ∧ a < this_ + requiredSize sizeofKP sig) ∧
        (∀ k, k < sig.paramsSize →
          (construct sizeofKP this_ mem sig).obj.values_ + k <
            this_ + requiredSize sizeofKP sig)) := by
  refine ⟨by decide, by decide, by decide, by decide, by decide, by decide, by decide,
    by decide, by decide, ?_⟩
  intro h
  have h1 := (h 80 4096 dirtyMemory hugeSignature).1
  revert h1
  decide

/-- Claim C8, amended: when the sum
`alignUp(s,16) + paramsSize() + 2 * numParameters()` does not wrap in `size_t`,
the size `operator new` requests is that sum, which is the distance from the
object start to the end of the `svmBound_` array as the constructor lays the
regions out.  Hence header, values region, `defined_` array and `svmBound_`
array follow one another without overlap, the bytes the constructor's `memset`
writes lie inside the block, and so does every `values_[k]` with
`k < paramsSize()` and every `defined_[i]`, `svmBound_[i]` with
`i < numParameters()`. -/
theorem allocation_covers_layout (sizeofKP this_ : Nat) (mem : Memory)
    (sig : KernelSignature)
    (hfit : alignUp sizeofKP 16 + sig.paramsSize + 2 * sig.numParameters < sizeModulus) :
    requiredSize sizeofKP sig = alignUp sizeofKP 16 + sig.paramsSize + 2 * sig.numParameters ∧
    (construct sizeofKP this_ mem sig).obj.values_ = this_ + alignUp sizeofKP 16 ∧
    (construct sizeofKP this_ mem sig).obj.defined_ =
      (construct sizeofKP this_ mem sig).obj.values_ + sig.paramsSize ∧
    (construct sizeofKP this_ mem sig).obj.svmBound_ =
      (construct sizeofKP this_ mem sig).obj.defined_ + sig.numParameters ∧
    (construct sizeofKP this_ mem sig).obj.svmBound_ + sig.numParameters =
      this_ + requiredSize sizeofKP sig ∧
    this_ + sizeofKP ≤ (construct sizeofKP this_ mem sig).obj.values_ ∧
    (construct sizeofKP this_ mem sig).obj.values_ + sig.paramsSize ≤
      (construct sizeofKP this_ mem sig).obj.defined_ ∧
    (construct sizeofKP this_ mem sig).obj.defined_ + sig.numParameters ≤
      (construct sizeofKP this_ mem sig).obj.svmBound_ ∧
    (∀ a, (construct sizeofKP this_ mem sig).mem a ≠ mem a →
      this_ ≤ a ∧ a < this_ + requiredSize sizeofKP sig) ∧
    (∀ k, k < sig.paramsSize →
      this_ ≤ (construct sizeofKP this_ mem sig).obj.values_ + k ∧
      (construct sizeofKP this_ mem sig).obj.values_ + k < this_ + requiredSize sizeofKP sig) ∧
    (∀ i, i < sig.numParameters →
      (this_ ≤ (construct sizeofKP this_ mem sig).obj.defined_ + i ∧
        (construct sizeofKP this_ mem sig).obj.defined_ + i <
          this_ + requiredSize sizeofKP sig) ∧
      (this_ ≤ (construct sizeofKP this_ mem sig).obj.svmBound_ + i ∧
        (construct sizeofKP this_ mem sig).obj.svmBound_ + i <
          this_ + requiredSize sizeofKP sig)) := by
  have hle := le_alignUp_16 sizeofKP
  have hreq : requiredSize sizeofKP sig =
      alignUp sizeofKP 16 + sig.paramsSize + 2 * sig.numParameters := by
    unfold requiredSize
    rw [show alignUp sizeofKP 16 + sig.paramsSize + sig.numParameters * sizeof_bool * 2 =
      alignUp sizeofKP 16 + sig.paramsSize + 2 * sig.numParameters by
        simp only [sizeof_bool]; omega]
    exact Nat.mod_eq_of_lt hfit
  rw [hreq]
  simp only [construct, sizeof_bool, Nat.mul_one]
  refine ⟨trivial, trivial, trivial, trivial, by omega, by omega, by omega, by omega, ?_, ?_, ?_⟩
  · intro a ha
    simp only [memset] at ha
    by_cases hc : this_ + alignUp sizeofKP 16 ≤ a ∧
        a < this_ + alignUp sizeofKP 16 +
          (this_ + alignUp sizeofKP 16 + sig.paramsSize + sig.numParameters +
            sig.numParameters - (this_ + alignUp sizeofKP 16))
    · omega
    · rw [if_neg hc] at ha
      exact absurd rfl ha
  · intro k hk
    omega
  · intro i hi
    omega

/-- Witness for `allocation_covers_layout`: the scenario signature with a header
of 80 bytes needs 96 bytes; the last flag `svmBound_[1]` is the last byte of the
block and the first byte after the block is not written. -/
theorem allocation_covers_layout_witness :
    alignUp 80 16 + sampleSignature.paramsSize + 2 * sampleSignature.numParameters <
      sizeModulus ∧
    requiredSize 80 sampleSignature = 96 ∧
    (construct 80 4096 dirtyMemory sampleSignature).obj.svmBound_ + 1 = 4096 + 95 ∧
    (construct 80 4096 dirtyMemory sampleSignature).mem (4096 + 95) = 0 ∧
    (construct 80 4096 dirtyMemory sampleSignature).mem (4096 + 96) = 255 :=
  have h := allocation_covers_layout 80 4096 dirtyMemory sampleSignature (by decide)
  ⟨by decide, by decide, by decide, by decide,
    by
      by_contra hne
      have hb := (h.2.2.2.2.2.2.2.2.1 (4096 + 96) hne).2
      revert hb
      decide⟩

/-- Pushing `f i` for each `i` of a list onto `acc` appends the mapped list. -/
theorem foldl_push_eq (f : Nat → Nat) (l : List Nat) (acc : List Nat) :
    l.foldl (fun v i => v ++ [f i]) acc = acc ++ l.map f := by
  induction l generalizing acc with
  | nil => simp
  | cons x xs ih => simp [ih]

/-- The list `addSvmPtr` builds is the array's first `count` entries in order. -/
theorem addSvmPtr_list (s : State) (a : Nat → Nat) (c : Nat) :
    (addSvmPtr a c s).obj.execSvmPtr_ = (List.range c).map a := by
  simp [addSvmPtr, foldl_push_eq]

/-- Claim C9: after `addSvmPtr(a, c)` the auxiliary list is exactly
`a[0], ..., a[c-1]` in order and `getNumberOfSvmPtr()` returns `c`, whatever the
list held before: a count of 0 empties it, a second identical call changes
nothing, a fresh state reports 0; memory (values and both flag arrays),
`validated_` and the other members are unchanged. -/
theorem addSvmPtr_replaces (s : State) (a : Nat → Nat) (c : Nat) :
    (addSvmPtr a c s).obj.execSvmPtr_ = (List.range c).map a ∧
    getNumberOfSvmPtr (addSvmPtr a c s) = c ∧
    (∀ i, i < c → (addSvmPtr a c s).obj.execSvmPtr_[i]? = some (a i)) ∧
    (∀ (b : Nat → Nat) (d : Nat), addSvmPtr a c (addSvmPtr b d s) = addSvmPtr a c s) ∧
    getNumberOfSvmPtr (addSvmPtr a 0 s) = 0 ∧
    addSvmPtr a c (addSvmPtr a c s) = addSvmPtr a c s ∧
    (∀ (sizeofKP this_ : Nat) (mem : Memory) (sig : KernelSignature),
      getNumberOfSvmPtr (construct sizeofKP this_ mem sig) = 0) ∧
    (addSvmPtr a c s).mem = s.mem ∧
    (∀ i, test i (addSvmPtr a c s) = test i s ∧
      svmBoundAt i (addSvmPtr a c s) = svmBoundAt i s) ∧
    (addSvmPtr a c s).obj.validated_ = s.obj.validated_ ∧
    (addSvmPtr a c s).obj.signature_ = s.obj.signature_ ∧
    (addSvmPtr a c s).obj.values_ = s.obj.values_ ∧
    (addSvmPtr a c s).obj.defined_ = s.obj.defined_ ∧
    (addSvmPtr a c s).obj.svmBound_ = s.obj.svmBound_ := by
  have hl := addSvmPtr_list s a c
  refine ⟨hl, ?_, ?_, ?_, ?_, rfl, ?_, rfl, ?_, rfl, rfl, rfl, rfl, rfl⟩
  · simp [getNumberOfSvmPtr, hl]
  · intro i hi
    rw [hl]
    simp [hi]
  · intro b d
    rfl
  · simp [getNumberOfSvmPtr, addSvmPtr_list]
  · intro sizeofKP this_ mem sig
    rfl
  · intro i
    exact ⟨rfl, rfl⟩

/-- Witness for `addSvmPtr_replaces`: replacing a two-entry list by the first
three entries of the array `10, 11, 12, ...`. -/
theorem addSvmPtr_replaces_witness :
    (addSvmPtr (fun i => 10 + i) 3 (addSvmPtr (fun _ => 7) 2 sampleFull)).obj.execSvmPtr_ =
      [10, 11, 12] ∧
    (addSvmPtr (fun i => 10 + i) 3
      (addSvmPtr (fun _ => 7) 2 sampleFull)).obj.execSvmPtr_[2]? = some 12 :=
  have h := addSvmPtr_replaces (addSvmPtr (fun _ => 7) 2 sampleFull) (fun i => 10 + i) 3
  ⟨h.1, h.2.2.1 2 (by decide)⟩

/-- Claim C10: a fresh state reports `FGS_DEFAULT`; after
`setSvmSystemPointersSupport(x)` the getter returns `x` (the last value set
wins); the setter changes nothing else (memory, `validated_`, auxiliary list,
pointers, signature, `execInfoOffset_`); `reset` and `addSvmPtr` never change
the flag. -/
theorem svmSystemPointersSupport_accessors (s : State) (x : FGSStatus) :
    (∀ (sizeofKP this_ : Nat) (mem : Memory) (sig : KernelSignature),
      getSvmSystemPointersSupport (construct sizeofKP this_ mem sig) =
        FGSStatus.FGS_DEFAULT) ∧
    getSvmSystemPointersSupport (setSvmSystemPointersSupport x s) = x ∧
    (∀ y : FGSStatus, getSvmSystemPointersSupport
      (setSvmSystemPointersSupport x (setSvmSystemPointersSupport y s)) = x) ∧
    (setSvmSystemPointersSupport x s).mem = s.mem ∧
    (∀ i, test i (setSvmSystemPointersSupport x s) = test i s ∧
      svmBoundAt i (setSvmSystemPointersSupport x s) = svmBoundAt i s) ∧
    (setSvmSystemPointersSupport x s).obj.validated_ = s.obj.validated_ ∧
    (setSvmSystemPointersSupport x s).obj.execSvmPtr_ = s.obj.execSvmPtr_ ∧
    (setSvmSystemPointersSupport x s).obj.execInfoOffset_ = s.obj.execInfoOffset_ ∧
    (setSvmSystemPointersSupport x s).obj.signature_ = s.obj.signature_ ∧
    (setSvmSystemPointersSupport x s).obj.values_ = s.obj.values_ ∧
    (setSvmSystemPointersSupport x s).obj.defined_ = s.obj.defined_ ∧
    (setSvmSystemPointersSupport x s).obj.svmBound_ = s.obj.svmBound_ ∧
    (∀ i, getSvmSystemPointersSupport (reset i s) = getSvmSystemPointersSupport s) ∧
    (∀ (a : Nat → Nat) (c : Nat),
      getSvmSystemPointersSupport (addSvmPtr a c s) = getSvmSystemPointersSupport s) := by
  refine ⟨fun _ _ _ _ => rfl, rfl, fun _ => rfl, rfl, fun _ => ⟨rfl, rfl⟩, rfl, rfl, rfl, rfl,
    rfl, rfl, rfl, fun _ => rfl, fun _ _ => rfl⟩

/-- The flags of `boundState` are those the call `set(0, 4, value, true)` leaves
on the freshly constructed state. -/
theorem boundState_by_set :
    Option.map (fun t => (t.obj.defined_, t.obj.svmBound_, t.mem 4180, t.mem 4181))
      (KernelParameters.set 0 4 (fun _ => 7) true
        (construct 80 4096 dirtyMemory unarySignature)) =
    some (boundState.obj.defined_, boundState.obj.svmBound_, boundState.mem 4180,
      boundState.mem 4181) := by
  decide

/-- Claim C4 fails on the code: `reset` and `test` carry no assertion.  For the
one-parameter signature, where `KernelSignature::at(1)` fails its assertion,
`test(1)` returns the byte of `svmBound_[0]`, and `reset(1)` clears
`svmBound_[0]` and writes the first byte after the allocated block. -/
theorem reset_test_index_unchecked :
    unarySignature.numParameters = 1 ∧
    unarySignature.at 1 = none ∧
    boundState.obj.defined_ + 1 = boundState.obj.svmBound_ ∧
    boundState.obj.svmBound_ + 1 = 4096 + requiredSize 80 unarySignature ∧
    test 1 boundState = true ∧
    svmBoundAt 0 boundState = true ∧
    svmBoundAt 0 (reset 1 boundState) = false ∧
    boundState.mem (4096 + requiredSize 80 unarySignature) = 255 ∧
    (reset 1 boundState).mem (4096 + requiredSize 80 unarySignature) = 0 := by
  decide

/-- A successful `at` names an in-range index and a descriptor of the list. -/
theorem at_eq_some (S : KernelSignature) (i : Nat) (d : KernelParameterDescriptor)
    (h : S.at i = some d) : i < S.numParameters ∧ d ∈ S.params_ := by
  unfold KernelSignature.at at h
  split at h
  · rename_i hi
    injection h with h
    subst h
    exact ⟨hi, List.get_mem _ _ _⟩
  · exact absurd h (by simp)

/-- An in-range `at` succeeds. -/
theorem at_of_lt (S : KernelSignature) (i : Nat) (h : i < S.numParameters) :
    ∃ d, S.at i = some d ∧ declaredSize S i = d.size_ := by
  have h2 : i < S.params_.length := h
  refine ⟨S.params_.get ⟨i, h2⟩, ?_, ?_⟩
  · simp [KernelSignature.at, h2]
  · simp [declaredSize, KernelSignature.at, h2]

/-- The shape of the state a successful `set` returns. -/
theorem set_eq_some (s s1 : State) (i size : Nat) (value : Nat → Nat) (b : Bool)
    (h : KernelParameters.set i size value b s = some s1) :
    ∃ d, s.obj.signature_.at i = some d ∧ size = d.size_ ∧
      s1 = { obj := { s.obj with validated_ := false },
             mem := store (store (memcpy s.mem (s.obj.values_ + d.offset_) value size)
               (s.obj.defined_ + i * sizeof_bool) (boolByte true))
               (s.obj.svmBound_ + i * sizeof_bool) (boolByte b) } := by
  unfold KernelParameters.set at h
  split at h
  · exact absurd h (by simp)
  · rename_i d hd
    split at h
    · rename_i hsz
      injection h with h
      exact ⟨d, hd, hsz, h.symm⟩
    · exact absurd h (by simp)

/-- With the declared size, `set` on an in-range index succeeds. -/
theorem set_declared (s : State) (i : Nat) (value : Nat → Nat) (b : Bool)
    (hi : i < s.obj.signature_.numParameters) :
    ∃ s1, KernelParameters.set i (declaredSize s.obj.signature_ i) value b s = some s1 := by
  obtain ⟨d, hd, hsz⟩ := at_of_lt s.obj.signature_ i hi
  unfold KernelParameters.set
  rw [hd, hsz]
  simp

/-- A successful `set` keeps signature and layout, clears `validated_`, makes
`test(i)` true and keeps every in-range flag that was true. -/
theorem set_effect (s s1 : State) (i size : Nat) (value : Nat → Nat) (b : Bool)
    (h : KernelParameters.set i size value b s = some s1) :
    s1.obj.signature_ = s.obj.signature_ ∧ (Layout s → Layout s1) ∧
    s1.obj.validated_ = false ∧
    (Layout s → s.obj.signature_.Packed →
      test i s1 = true ∧
      ∀ j, j < s.obj.signature_.numParameters → test j s = true → test j s1 = true) := by
  obtain ⟨d, hd, hsz, rfl⟩ := set_eq_some s s1 i size value b h
  obtain ⟨hi, hmem⟩ := at_eq_some _ _ _ hd
  refine ⟨rfl, fun hl => hl, rfl, ?_⟩
  intro hl hp
  obtain ⟨hdef, hbnd⟩ := hl
  have hfit := hp d hmem
  simp only [KernelSignature.paramsSize] at hdef
  simp only [sizeof_bool, Nat.mul_one] at hbnd
  constructor
  · simp only [test, loadBool, store, sizeof_bool, Nat.mul_one, boolByte]
    rw [if_neg (by omega)]
    simp
  · intro j hj htj
    simp only [test, loadBool, store, memcpy, sizeof_bool, Nat.mul_one, boolByte] at htj ⊢
    rw [if_neg (by omega)]
    by_cases hji : j = i
    · subst hji
      simp
    · rw [if_neg (by omega), if_neg (by omega)]
      exact htj

/-- The flags `check` reads are the flags it leaves. -/
theorem check_test (s : State) (i : Nat) : test i (check s).2 = test i s := by
  unfold check
  split <;> rfl

/-- What `check` returns: the cached `true`, or whether every flag is set. -/
theorem check_fst (s : State) :
    (check s).1 = true ↔
      (s.obj.validated_ = true ∨ ∀ i, i < s.obj.signature_.numParameters → test i s = true) := by
  unfold check
  by_cases hv : s.obj.validated_ = true
  · simp [hv]
  · simp [hv, List.all_eq_true]

/-- The flag `check` caches is the answer it returns. -/
theorem check_validated (s : State) : (check s).2.obj.validated_ = (check s).1 := by
  unfold check
  by_cases hv : s.obj.validated_ = true
  · simp [hv]
  · simp [hv]

/-- Every reachable state belongs to its signature, has the constructor's
layout, and has `validated_` true only when every flag is set. -/
theorem reachable_inv (sig : KernelSignature) (s : State) (hr : Reachable sig s) :
    s.obj.signature_ = sig ∧ Layout s ∧
    (s.obj.validated_ = true → ∀ i, i < sig.numParameters → test i s = true) := by
  induction hr with
  | construct sizeofKP this_ mem =>
    refine ⟨rfl, ⟨rfl, rfl⟩, ?_⟩
    intro h
    exact absurd h (by simp [construct])
  | reset s i _ _ ih =>
    refine ⟨ih.1, ih.2.1, ?_⟩
    intro h
    exact absurd h (by simp [reset])
  | set s s1 i size value b _ hset ih =>
    obtain ⟨h1, h2, h3, _⟩ := set_effect s s1 i size value b hset
    refine ⟨h1.trans ih.1, h2 ih.2.1, ?_⟩
    intro h
    rw [h3] at h
    exact absurd h (by simp)
  | check s _ ih =>
    have hobj : (check s).2.obj.signature_ = s.obj.signature_ ∧ Layout (check s).2 := by
      unfold check
      split
      · exact ⟨rfl, ih.2.1⟩
      · exact ⟨rfl, ih.2.1⟩
    refine ⟨hobj.1.trans ih.1, hobj.2, ?_⟩
    intro hv i hi
    rw [check_test]
    rw [check_validated] at hv
    rcases (check_fst s).mp hv with h | h
    · exact ih.2.2 h i hi
    · exact h i (by rw [ih.1]; exact hi)
  | addSvmPtr s a c _ ih => exact ih
  | setSvmSystemPointersSupport s x _ ih => exact ih

/-- One call that is not a `reset`, with an in-range index if it binds: it
succeeds, keeps signature and layout, keeps every in-range flag that was true
and sets the flag of the index it binds. -/
theorem call_run_defined (c : Call) (s : State) (hl : Layout s)
    (hp : s.obj.signature_.Packed)
    (hc : ∀ i, c.boundIndex = some i → i < s.obj.signature_.numParameters) :
    ∃ s1, c.run s = some s1 ∧ s1.obj.signature_ = s.obj.signature_ ∧ Layout s1 ∧
      (∀ j, j < s.obj.signature_.numParameters → test j s = true → test j s1 = true) ∧
      (∀ i, c.boundIndex = some i → test i s1 = true) := by
  cases c with
  | bind index value b =>
    have hi := hc index rfl
    obtain ⟨s1, hs1⟩ := set_declared s index value b hi
    obtain ⟨h1, h2, _, h4⟩ := set_effect s s1 index _ value b hs1
    refine ⟨s1, hs1, h1, h2 hl, (h4 hl hp).2, ?_⟩
    intro i hbi
    simp only [Call.boundIndex, Option.some.injEq] at hbi
    subst hbi
    exact (h4 hl hp).1
  | check =>
    refine ⟨(check s).2, rfl, ?_, ?_, ?_, ?_⟩
    · unfold check
      split <;> rfl
    · unfold check
      split
      · exact hl
      · exact hl
    · intro j _ hj
      rw [check_test]
      exact hj
    · intro i hbi
      simp [Call.boundIndex] at hbi
  | addSvmPtr a n =>
    refine ⟨addSvmPtr a n s, rfl, rfl, hl, fun _ _ h => h, ?_⟩
    intro i hbi
    simp [Call.boundIndex] at hbi
  | setSvmSystemPointersSupport x =>
    refine ⟨setSvmSystemPointersSupport x s, rfl, rfl, hl, fun _ _ h => h, ?_⟩
    intro i hbi
    simp [Call.boundIndex] at hbi

/-- A sequence of calls without `reset` whose binds are in range succeeds; in
the final state the flag of every in-range index that was set before or is
bound by the sequence is true. -/
theorem runAll_defined (sig : KernelSignature) (hp : sig.Packed) (calls : List Call) :
    ∀ s : State, s.obj.signature_ = sig → Layout s →
    (∀ i, i ∈ calls.filterMap Call.boundIndex → i < sig.numParameters) →
    ∃ s1, runAll calls s = some s1 ∧ s1.obj.signature_ = sig ∧ Layout s1 ∧
      ∀ i, i < sig.numParameters →
        (test i s = true ∨ i ∈ calls.filterMap Call.boundIndex) → test i s1 = true := by
  induction calls with
  | nil =>
    intro s hs hl _
    refine ⟨s, rfl, hs, hl, ?_⟩
    intro i _ h
    rcases h with h | h
    · exact h
    · simp at h
  | cons c cs ih =>
    intro s hs hl hr
    have hc : ∀ i, c.boundIndex = some i → i < s.obj.signature_.numParameters := by
      intro i hi
      rw [hs]
      apply hr
      simp [List.filterMap_cons, hi]
    obtain ⟨s1, hrun, hsig, hl1, hkeep, hset⟩ := call_run_defined c s hl (hs ▸ hp) hc
    have hr1 : ∀ i, i ∈ cs.filterMap Call.boundIndex → i < sig.numParameters := by
      intro i hi
      apply hr
      rw [List.filterMap_cons]
      split
      · exact hi
      · exact List.mem_cons_of_mem _ hi
    obtain ⟨s2, hrun2, hsig2, hl2, hall⟩ := ih s1 (hsig.trans hs) hl1 hr1
    refine ⟨s2, ?_, hsig2, hl2, ?_⟩
    · simp only [runAll, hrun]
      exact hrun2
    · intro i hi h
      apply hall i hi
      rcases h with h | h
      · left
        exact hkeep i (by rw [hs]; exact hi) h
      · rw [List.filterMap_cons] at h
        split at h
        · right
          exact h
        · rename_i k hk
          rcases List.mem_cons.mp h with h | h
          · left
            subst h
            exact hset i hk
          · right
            exact h

end amd
